import Mathlib

/-!
# Pac-Man (script.js): shallow embedding of the game logic

The script keeps its game in six module variables and drives a page (score
text, victory banner, alert box, two interval timers).  The embedding keeps
all of them in one record, `GameState`, and turns every function of the
script that touches them into a function on that record.

Numbers are the integers the script computes with (`Int`); `Math.floor(a / b)`
is floor division and `%` is the truncating remainder of JavaScript.  A call
of `Math.random()` enters through the index `Math.floor(Math.random() * 4)`
it is used for, a value of `Fin 4`; the draws of one `moveGhosts` call are a
stream consumed in call order.  The cells that `updateGrid` repaints are a
function of the variables at that moment and are read by nothing, so only
its victory check is kept.
-/

set_option maxRecDepth 1000000

namespace PacMan

/-! ## Constants -/

/-- Grid dimensions. -/
def GRID_SIZE : Int := 15

/-- Pac-Man starts in the center: `Math.floor((GRID_SIZE * GRID_SIZE) / 2)`. -/
def PACMAN_START_POSITION : Int := Int.fdiv (GRID_SIZE * GRID_SIZE) 2

/-- The four corners, in the order of the script. -/
def GHOST_START_POSITIONS : List Int :=
  [0, GRID_SIZE - 1, GRID_SIZE * (GRID_SIZE - 1), GRID_SIZE * GRID_SIZE - 1]

/-- Ghost detection range. -/
def DETECTION_RANGE : Int := 3

/-! ## JavaScript arithmetic used by the script -/

/-- The function `Math.abs` on integers. -/
def mathAbs (x : Int) : Int := if x < 0 then -x else x

/-- The function `Math.min` on two integers. -/
def mathMin (a b : Int) : Int := if a ≤ b then a else b

/-- The function `Math.max` on two integers. -/
def mathMax (a b : Int) : Int := if a ≤ b then b else a

/-- Helper of the script: `[Math.floor(position / GRID_SIZE), position % GRID_SIZE]`. -/
def getRowCol (position : Int) : Int × Int :=
  (Int.fdiv position GRID_SIZE, Int.tmod position GRID_SIZE)

/-! ## State -/

/-- The module variables of the script followed by the page state it writes. -/
structure GameState where
  /-- Variable `pacmanPosition`. -/
  pacmanPosition : Int
  /-- Variable `score`. -/
  score : Int
  /-- Variable `ghosts`. -/
  ghosts : List Int
  /-- Variable `pellets`. -/
  pellets : List Int
  /-- Variable `currentDirection`; `none` is `null`. -/
  currentDirection : Option String
  /-- Variable `movementInterval`: `true` when it holds a timer handle, `false` when `null`. -/
  movementInterval : Bool
  /-- Page: `scoreElement.textContent`. -/
  scoreText : Int
  /-- Page: `victoryMessage` carries the class `hidden`. -/
  victoryHidden : Bool
  /-- Page: number of game-over alerts shown so far. -/
  alerts : Nat
  /-- Host: the interval that calls `movePacman` is running. -/
  movementTimerRunning : Bool
  /-- Host: the interval that calls `moveGhosts` is running. -/
  ghostTimerRunning : Bool
deriving DecidableEq, Repr

/-- The pellet list both the module header and `resetGame` build:
`Array.from({ length: GRID_SIZE * GRID_SIZE }, (_, i) => i).filter(
(i) => ![pacmanPosition, ...ghosts].includes(i))`. -/
def freshPellets (pacmanPosition : Int) (ghosts : List Int) : List Int :=
  ((List.range (GRID_SIZE * GRID_SIZE).toNat).map Int.ofNat).filter
    (fun i => !(pacmanPosition :: ghosts).contains i)

/-- Function `showVictoryMessage`: unhide the banner, clear both intervals. -/
def showVictoryMessage (s : GameState) : GameState :=
  { s with victoryHidden := false, movementTimerRunning := false, ghostTimerRunning := false }

/-- Function `updateGrid`, its victory check (the repaint writes only cells). -/
def updateGrid (s : GameState) : GameState :=
  if s.pellets.length = 0 then showVictoryMessage s else s

/-- Function `resetGame`. -/
def resetGame (s : GameState) : GameState :=
  updateGrid
    { s with
      pacmanPosition := PACMAN_START_POSITION
      score := 0
      scoreText := 0
      ghosts := GHOST_START_POSITIONS
      pellets := freshPellets PACMAN_START_POSITION GHOST_START_POSITIONS
      currentDirection := none
      movementTimerRunning := false
      movementInterval := false
      victoryHidden := true }

/-- Function `gameOver`: the alert, then `resetGame`. -/
def gameOver (s : GameState) : GameState :=
  resetGame { s with alerts := s.alerts + 1 }

/-- The state once the script has run to its last line: the game variables as
declared, `initGame()` (which calls `resetGame`), then the ghost interval. -/
def initialState : GameState :=
  { resetGame
      { pacmanPosition := PACMAN_START_POSITION
        score := 0
        ghosts := GHOST_START_POSITIONS
        pellets := freshPellets PACMAN_START_POSITION GHOST_START_POSITIONS
        currentDirection := none
        movementInterval := false
        scoreText := 0
        victoryHidden := true
        alerts := 0
        movementTimerRunning := false
        ghostTimerRunning := false } with
    ghostTimerRunning := true }

/-! ## Pac-Man -/

/-- Local `newRow` of `movePacman` after the `switch`. -/
def movePacman.newRow (s : GameState) : Int :=
  let row := (getRowCol s.pacmanPosition).1
  if s.currentDirection = some "ArrowUp" then
    (if row = 0 then GRID_SIZE - 1 else row - 1)
  else if s.currentDirection = some "ArrowDown" then
    (if row = GRID_SIZE - 1 then 0 else row + 1)
  else row

/-- Local `newCol` of `movePacman` after the `switch`. -/
def movePacman.newCol (s : GameState) : Int :=
  let col := (getRowCol s.pacmanPosition).2
  if s.currentDirection = some "ArrowUp" then col
  else if s.currentDirection = some "ArrowDown" then col
  else if s.currentDirection = some "ArrowLeft" then
    (if col = 0 then GRID_SIZE - 1 else col - 1)
  else if s.currentDirection = some "ArrowRight" then
    (if col = GRID_SIZE - 1 then 0 else col + 1)
  else col

/-- Local `newPosition` of `movePacman`. -/
def movePacman.newPosition (s : GameState) : Int :=
  movePacman.newRow s * GRID_SIZE + movePacman.newCol s

/-- Function `movePacman`. -/
def movePacman (s : GameState) : GameState :=
  let newPosition := movePacman.newPosition s
  if !s.ghosts.contains newPosition then
    let s1 := { s with pacmanPosition := newPosition }
    let s2 :=
      if s1.pellets.contains newPosition then
        { s1 with
          pellets := s1.pellets.filter (fun pos => pos != newPosition)
          score := s1.score + 10
          scoreText := s1.score + 10 }
      else s1
    updateGrid s2
  else
    gameOver s

/-! ## Input -/

/-- Local `validDirections` of `handleInput`. -/
def validDirections : List String := ["ArrowUp", "ArrowDown", "ArrowLeft", "ArrowRight"]

/-- Function `handleInput`, applied to `event.key`. -/
def handleInput (key : String) (s : GameState) : GameState :=
  if validDirections.contains key then
    let s1 := { s with currentDirection := some key }
    if !s1.movementInterval then
      { s1 with movementInterval := true, movementTimerRunning := true }
    else s1
  else s

/-! ## Ghosts -/

/-- Local `directions` of the `moveGhosts` callback. -/
def directions : List String := ["ArrowUp", "ArrowDown", "ArrowLeft", "ArrowRight"]

/-- Local `distance` of the `moveGhosts` callback. -/
def moveGhosts.distance (pacmanPosition ghostPos : Int) : Int :=
  mathAbs ((getRowCol ghostPos).1 - (getRowCol pacmanPosition).1)
    + mathAbs ((getRowCol ghostPos).2 - (getRowCol pacmanPosition).2)

/-- Local `newRow` of the `moveGhosts` callback; `randomIndex` is
`Math.floor(Math.random() * directions.length)` and is read only when wandering. -/
def moveGhosts.newRow (pacmanPosition ghostPos : Int) (randomIndex : Fin 4) : Int :=
  let ghostRow := (getRowCol ghostPos).1
  let pacmanRow := (getRowCol pacmanPosition).1
  if moveGhosts.distance pacmanPosition ghostPos ≤ DETECTION_RANGE then
    (if ghostRow < pacmanRow then mathMin (ghostRow + 1) (GRID_SIZE - 1)
     else mathMax (ghostRow - 1) 0)
  else
    let randomDirection := directions[randomIndex.val]?
    if randomDirection = some "ArrowUp" then
      (if ghostRow = 0 then GRID_SIZE - 1 else ghostRow - 1)
    else if randomDirection = some "ArrowDown" then
      (if ghostRow = GRID_SIZE - 1 then 0 else ghostRow + 1)
    else ghostRow

/-- Local `newCol` of the `moveGhosts` callback. -/
def moveGhosts.newCol (pacmanPosition ghostPos : Int) (randomIndex : Fin 4) : Int :=
  let ghostCol := (getRowCol ghostPos).2
  let pacmanCol := (getRowCol pacmanPosition).2
  if moveGhosts.distance pacmanPosition ghostPos ≤ DETECTION_RANGE then
    (if ghostCol < pacmanCol then mathMin (ghostCol + 1) (GRID_SIZE - 1)
     else mathMax (ghostCol - 1) 0)
  else
    let randomDirection := directions[randomIndex.val]?
    if randomDirection = some "ArrowUp" then ghostCol
    else if randomDirection = some "ArrowDown" then ghostCol
    else if randomDirection = some "ArrowLeft" then
      (if ghostCol = 0 then GRID_SIZE - 1 else ghostCol - 1)
    else if randomDirection = some "ArrowRight" then
      (if ghostCol = GRID_SIZE - 1 then 0 else ghostCol + 1)
    else ghostCol

/-- Return value of the `moveGhosts` callback for one ghost. -/
def moveGhosts.newPosition (pacmanPosition ghostPos : Int) (randomIndex : Fin 4) : Int :=
  moveGhosts.newRow pacmanPosition ghostPos randomIndex * GRID_SIZE
    + moveGhosts.newCol pacmanPosition ghostPos randomIndex

/-- The `ghosts.map(...)` of `moveGhosts`: ghosts are visited in order, and a
ghost out of range takes the next draw of the stream, a ghost in range none. -/
def moveGhosts.mapGhosts (pacmanPosition : Int) : List Int → (Nat → Fin 4) → List Int
  | [], _ => []
  | ghostPos :: rest, draws =>
    if moveGhosts.distance pacmanPosition ghostPos ≤ DETECTION_RANGE then
      moveGhosts.newPosition pacmanPosition ghostPos (draws 0)
        :: moveGhosts.mapGhosts pacmanPosition rest draws
    else
      moveGhosts.newPosition pacmanPosition ghostPos (draws 0)
        :: moveGhosts.mapGhosts pacmanPosition rest (fun n => draws (n + 1))

/-- Function `moveGhosts`, given the draws of this call. -/
def moveGhosts (draws : Nat → Fin 4) (s : GameState) : GameState :=
  let s1 := updateGrid { s with ghosts := moveGhosts.mapGhosts s.pacmanPosition s.ghosts draws }
  if s1.ghosts.contains s1.pacmanPosition then gameOver s1 else s1

/-! ## Vocabulary of the properties -/

/-- States the script can be in after it has loaded: the initial state closed
under the three entry points the page calls (key handler, the two timers),
with any key and any draws. -/
inductive Reachable : GameState → Prop
  | init : Reachable initialState
  | handleInput (key : String) {s : GameState} : Reachable s → Reachable (handleInput key s)
  | movePacman {s : GameState} : Reachable s → Reachable (movePacman s)
  | moveGhosts (draws : Nat → Fin 4) {s : GameState} : Reachable s → Reachable (moveGhosts draws s)

/-- One timer tick: a `movePacman` call or a `moveGhosts` call with its draws. -/
inductive Tick where
  | pacman : Tick
  | ghosts (draws : Nat → Fin 4) : Tick

/-- Run one tick. -/
def Tick.run : Tick → GameState → GameState
  | Tick.pacman, s => movePacman s
  | Tick.ghosts draws, s => moveGhosts draws s

/-- The start configuration, value by value: the six game variables. -/
def StartConfiguration (s : GameState) : Prop :=
  s.pacmanPosition = 112 ∧ s.ghosts = [0, 14, 210, 224] ∧ s.score = 0 ∧
  s.pellets = ((List.range 225).map Int.ofNat).filter
      (fun i => decide (i ≠ 0 ∧ i ≠ 14 ∧ i ≠ 112 ∧ i ≠ 210 ∧ i ≠ 224)) ∧
  s.currentDirection = none ∧ s.movementInterval = false

/-- Constant draws, for concrete runs. -/
def constDraws (i : Fin 4) : Nat → Fin 4 := fun _ => i

/-- A ghost at (5,5) = 80 with the player at (5,8) = 83, the other three ghosts
in their corners. -/
def alignedRowState : GameState :=
  { initialState with pacmanPosition := 83, ghosts := [80, 14, 210, 224] }

/-- From the initial state: key Up, seven player ticks (to (0,7), 70 points),
key Left, six player ticks (to (0,1), 130 points).  No ghost has moved, so the
ghost of corner 0 is the left neighbour. -/
def besideCornerGhost : GameState :=
  movePacman^[6] (handleInput "ArrowLeft" (movePacman^[7] (handleInput "ArrowUp" initialState)))

/-- The states of `Reachable` extended by explicit `resetGame` calls (the
page's `initGame` is the only caller besides `gameOver`). -/
inductive ReachableWithReset : GameState → Prop
  | init : ReachableWithReset initialState
  | handleInput (key : String) {s : GameState} :
      ReachableWithReset s → ReachableWithReset (handleInput key s)
  | movePacman {s : GameState} : ReachableWithReset s → ReachableWithReset (movePacman s)
  | moveGhosts (draws : Nat → Fin 4) {s : GameState} :
      ReachableWithReset s → ReachableWithReset (moveGhosts draws s)
  | resetGame {s : GameState} : ReachableWithReset s → ReachableWithReset (resetGame s)

/-- What every reachable state satisfies (shown below): positions on the grid,
four ghosts, no ghost and no pellet on the player's cell, pellets without
duplicates and accounted for in the score, score 0 while no direction is
set, banner shown exactly when no pellet is left. -/
structure WellFormed (s : GameState) : Prop where
  pacman_nonneg : 0 ≤ s.pacmanPosition
  pacman_lt : s.pacmanPosition < 225
  ghosts_length : s.ghosts.length = 4
  ghosts_range : ∀ g ∈ s.ghosts, 0 ≤ g ∧ g < 225
  no_overlap : s.pacmanPosition ∉ s.ghosts
  no_pellet : s.pacmanPosition ∉ s.pellets
  pellets_nodup : s.pellets.Nodup
  accounting : s.score + 10 * (s.pellets.length : Int) = 2200
  idle_score : s.currentDirection = none → s.score = 0
  banner : s.victoryHidden = false ↔ s.pellets = []

/-- From the initial state: key Right, then four player ticks and no ghost tick. -/
def afterFourRight : GameState :=
  movePacman^[4] (handleInput "ArrowRight" initialState)

/-- One pellet left, on cell 113, right of the player who heads Right; ghosts
in their corners. -/
def lastPelletState : GameState :=
  { initialState with pellets := [113], score := 2190, scoreText := 2190,
                      currentDirection := some "ArrowRight", movementInterval := true,
                      movementTimerRunning := true }

/-- The player on cell 7 = (0,7), top row, heading Up. -/
def upFromTopRow : GameState :=
  { initialState with pacmanPosition := 7, currentDirection := some "ArrowUp" }

namespace Spec

/-- Specification, data model: the four directions. -/
inductive Direction where
  | Up | Down | Left | Right
deriving DecidableEq, Repr

/-- Specification 4.1, `toRowCol`: `row = pos div N`, `col = pos mod N`. -/
def toRowCol (pos : Int) : Int × Int := (pos / 15, pos % 15)

/-- Specification 4.1, `toIndex`: `row·N + col`. -/
def toIndex (row col : Int) : Int := row * 15 + col

/-- Specification 4.1, `step`: one unit move with wraparound: Up from row 0
lands on row N−1, Down from row N−1 on row 0, Left from column 0 on column
N−1, Right from column N−1 on column 0; otherwise increment or decrement. -/
def step (row col : Int) : Direction → Int × Int
  | Direction.Up => if row = 0 then (15 - 1, col) else (row - 1, col)
  | Direction.Down => if row = 15 - 1 then (0, col) else (row + 1, col)
  | Direction.Left => if col = 0 then (row, 15 - 1) else (row, col - 1)
  | Direction.Right => if col = 15 - 1 then (row, 0) else (row, col + 1)

/-- The cell one wraparound step from `pos` in direction `d`. -/
def stepFrom (pos : Int) (d : Direction) : Int :=
  toIndex (step (toRowCol pos).1 (toRowCol pos).2 d).1 (step (toRowCol pos).1 (toRowCol pos).2 d).2

end Spec

/-! ## Basic facts -/

theorem getRowCol_fst (p : Int) : (getRowCol p).1 = p / 15 := by
  show Int.fdiv p 15 = p / 15
  exact Int.fdiv_eq_ediv p (by decide)

theorem getRowCol_snd {p : Int} (h : 0 ≤ p) : (getRowCol p).2 = p % 15 := by
  show Int.tmod p 15 = p % 15
  exact Int.tmod_eq_emod h (by decide)

theorem getRowCol_of_row_col {row col : Int} (hr : 0 ≤ row) (hc : 0 ≤ col) (hc15 : col < 15) :
    getRowCol (row * 15 + col) = (row, col) := by
  have h0 : (0 : Int) ≤ row * 15 + col := by omega
  apply Prod.ext
  · rw [getRowCol_fst]; show (row * 15 + col) / 15 = row; omega
  · rw [getRowCol_snd h0]; show (row * 15 + col) % 15 = col; omega

theorem freshPellets_start :
    freshPellets PACMAN_START_POSITION GHOST_START_POSITIONS
      = ((List.range 225).map Int.ofNat).filter
          (fun i => decide (i ≠ 0 ∧ i ≠ 14 ∧ i ≠ 112 ∧ i ≠ 210 ∧ i ≠ 224)) := by
  decide

theorem freshPellets_start_length :
    (freshPellets PACMAN_START_POSITION GHOST_START_POSITIONS).length = 220 := by
  decide

theorem not_mem_freshPellets (p : Int) (gs : List Int) : p ∉ freshPellets p gs := by
  simp [freshPellets]

/-- In `resetGame` the closing `updateGrid` finds 220 pellets and shows no banner. -/
theorem resetGame_eq (s : GameState) :
    resetGame s =
      { s with
        pacmanPosition := PACMAN_START_POSITION
        score := 0
        scoreText := 0
        ghosts := GHOST_START_POSITIONS
        pellets := freshPellets PACMAN_START_POSITION GHOST_START_POSITIONS
        currentDirection := none
        movementTimerRunning := false
        movementInterval := false
        victoryHidden := true } := by
  unfold resetGame updateGrid
  rw [if_neg]
  show ¬ (freshPellets PACMAN_START_POSITION GHOST_START_POSITIONS).length = 0
  rw [freshPellets_start_length]; decide

@[simp] theorem updateGrid_pacmanPosition (s : GameState) :
    (updateGrid s).pacmanPosition = s.pacmanPosition := by
  unfold updateGrid showVictoryMessage; split <;> rfl

@[simp] theorem updateGrid_score (s : GameState) : (updateGrid s).score = s.score := by
  unfold updateGrid showVictoryMessage; split <;> rfl

@[simp] theorem updateGrid_ghosts (s : GameState) : (updateGrid s).ghosts = s.ghosts := by
  unfold updateGrid showVictoryMessage; split <;> rfl

@[simp] theorem updateGrid_pellets (s : GameState) : (updateGrid s).pellets = s.pellets := by
  unfold updateGrid showVictoryMessage; split <;> rfl

@[simp] theorem updateGrid_currentDirection (s : GameState) :
    (updateGrid s).currentDirection = s.currentDirection := by
  unfold updateGrid showVictoryMessage; split <;> rfl

@[simp] theorem updateGrid_movementInterval (s : GameState) :
    (updateGrid s).movementInterval = s.movementInterval := by
  unfold updateGrid showVictoryMessage; split <;> rfl

@[simp] theorem updateGrid_alerts (s : GameState) : (updateGrid s).alerts = s.alerts := by
  unfold updateGrid showVictoryMessage; split <;> rfl

@[simp] theorem updateGrid_scoreText (s : GameState) : (updateGrid s).scoreText = s.scoreText := by
  unfold updateGrid showVictoryMessage; split <;> rfl

theorem startConfiguration_resetGame (s : GameState) : StartConfiguration (resetGame s) := by
  rw [resetGame_eq]
  refine ⟨?_, ?_, rfl, freshPellets_start, rfl, rfl⟩
  · show PACMAN_START_POSITION = 112
    decide
  · show GHOST_START_POSITIONS = [0, 14, 210, 224]
    decide

theorem startConfiguration_gameOver (s : GameState) : StartConfiguration (gameOver s) :=
  startConfiguration_resetGame _

theorem gameOver_alerts (s : GameState) : (gameOver s).alerts = s.alerts + 1 := by
  unfold gameOver; rw [resetGame_eq]

/-- The initial state, field by field. -/
theorem initialState_eq :
    initialState =
      { pacmanPosition := PACMAN_START_POSITION
        score := 0
        ghosts := GHOST_START_POSITIONS
        pellets := freshPellets PACMAN_START_POSITION GHOST_START_POSITIONS
        currentDirection := none
        movementInterval := false
        scoreText := 0
        victoryHidden := true
        alerts := 0
        movementTimerRunning := false
        ghostTimerRunning := true } := by
  unfold initialState
  rw [resetGame_eq]

theorem startConfiguration_initialState : StartConfiguration initialState := by
  rw [initialState_eq]
  refine ⟨?_, ?_, rfl, freshPellets_start, rfl, rfl⟩
  · show PACMAN_START_POSITION = 112
    decide
  · show GHOST_START_POSITIONS = [0, 14, 210, 224]
    decide

theorem StartConfiguration.not_mem_pellets {s : GameState} (h : StartConfiguration s) :
    s.pacmanPosition ∉ s.pellets := by
  obtain ⟨hp, _, _, hpel, _, _⟩ := h
  rw [hp, hpel]
  intro hmem
  have h2 := (List.mem_filter.mp hmem).2
  revert h2
  decide

/-! ## Chase step (C1, C2) -/

/-- C1 (the code at the failing input): a ghost at (5,5) = cell 80 with the
player at (5,8) = cell 83 is at distance 3 and chases; whatever the draw, its
new cell is 66 = (4,6), not 81 = (5,6): the row, on which ghost and player
were aligned, moved from 5 to 4.  The same holds inside a full `moveGhosts`
call on a state with that ghost and that player. -/
theorem chase_aligned_row_moves :
    getRowCol 80 = (5, 5) ∧ getRowCol 83 = (5, 8) ∧ moveGhosts.distance 83 80 = 3 ∧
    (∀ i : Fin 4, moveGhosts.newPosition 83 80 i = 66) ∧
    getRowCol 66 = (4, 6) ∧
    (∀ draws : Nat → Fin 4, (moveGhosts draws alignedRowState).ghosts.head? = some 66) := by
  refine ⟨by decide, by decide, by decide, by decide, by decide, ?_⟩
  intro draws
  have h83 : alignedRowState.pacmanPosition = 83 := rfl
  have hg : alignedRowState.ghosts = [80, 14, 210, 224] := rfl
  have hd : moveGhosts.distance 83 80 ≤ DETECTION_RANGE := by decide
  have hn : moveGhosts.newPosition 83 80 (draws 0) = 66 := by
    generalize draws 0 = i; revert i; decide
  have hd14 : ¬ moveGhosts.distance 83 14 ≤ DETECTION_RANGE := by decide
  have hd210 : ¬ moveGhosts.distance 83 210 ≤ DETECTION_RANGE := by decide
  have hd224 : ¬ moveGhosts.distance 83 224 ≤ DETECTION_RANGE := by decide
  have hfar : ∀ a b c : Fin 4,
      ([66, moveGhosts.newPosition 83 14 a, moveGhosts.newPosition 83 210 b,
        moveGhosts.newPosition 83 224 c] : List Int).contains 83 = false := by decide
  unfold moveGhosts
  simp only [updateGrid_ghosts, updateGrid_pacmanPosition, h83, hg, moveGhosts.mapGhosts,
    if_pos hd, if_neg hd14, if_neg hd210, if_neg hd224, hn, hfar]
  simp

/-- C2 (the code at the failing input): ghost at cell 80 = (5,5), player at
cell 83 = (5,8), distinct cells at Manhattan distance 3, so the ghost chases;
whatever the draw, the cell the ghost moves to is again at distance 3 from
the player: the step did not reduce the distance. -/
theorem chase_distance_not_reduced :
    (80 : Int) ≠ 83 ∧ moveGhosts.distance 83 80 = 3 ∧
    moveGhosts.distance 83 80 ≤ DETECTION_RANGE ∧
    (∀ i : Fin 4,
      moveGhosts.distance 83 (moveGhosts.newPosition 83 80 i) = 3 ∧
      ¬ moveGhosts.distance 83 (moveGhosts.newPosition 83 80 i) < moveGhosts.distance 83 80) := by
  decide

/-! ## The two branches of `movePacman` and of `moveGhosts` -/

theorem movePacman_of_mem {s : GameState} (h : movePacman.newPosition s ∈ s.ghosts) :
    movePacman s = gameOver s := by
  unfold movePacman
  simp [h]

theorem movePacman_of_not_mem {s : GameState} (h : movePacman.newPosition s ∉ s.ghosts) :
    movePacman s =
      updateGrid
        (if movePacman.newPosition s ∈ s.pellets then
          { s with
            pacmanPosition := movePacman.newPosition s
            pellets := s.pellets.filter (fun pos => pos != movePacman.newPosition s)
            score := s.score + 10
            scoreText := s.score + 10 }
        else { s with pacmanPosition := movePacman.newPosition s }) := by
  unfold movePacman
  simp [h]

theorem moveGhosts_of_mem {draws : Nat → Fin 4} {s : GameState}
    (h : s.pacmanPosition ∈ moveGhosts.mapGhosts s.pacmanPosition s.ghosts draws) :
    moveGhosts draws s =
      gameOver (updateGrid
        { s with ghosts := moveGhosts.mapGhosts s.pacmanPosition s.ghosts draws }) := by
  unfold moveGhosts
  simp [h]

theorem moveGhosts_of_not_mem {draws : Nat → Fin 4} {s : GameState}
    (h : s.pacmanPosition ∉ moveGhosts.mapGhosts s.pacmanPosition s.ghosts draws) :
    moveGhosts draws s =
      updateGrid { s with ghosts := moveGhosts.mapGhosts s.pacmanPosition s.ghosts draws } := by
  unfold moveGhosts
  simp [h]

theorem handleInput_pacmanPosition (key : String) (s : GameState) :
    (handleInput key s).pacmanPosition = s.pacmanPosition := by
  unfold handleInput
  split
  · dsimp only; split <;> rfl
  · rfl

theorem handleInput_pellets (key : String) (s : GameState) :
    (handleInput key s).pellets = s.pellets := by
  unfold handleInput
  split
  · dsimp only; split <;> rfl
  · rfl

/-! ## Pellet exclusivity (C3) -/

/-- After `movePacman` the player's cell holds no pellet, whatever the state before. -/
theorem movePacman_not_mem_pellets (s : GameState) :
    (movePacman s).pacmanPosition ∉ (movePacman s).pellets := by
  by_cases h : movePacman.newPosition s ∈ s.ghosts
  · rw [movePacman_of_mem h]
    exact (startConfiguration_gameOver s).not_mem_pellets
  · rw [movePacman_of_not_mem h]
    by_cases hp : movePacman.newPosition s ∈ s.pellets
    · simp [hp]
    · simp [hp]

/-- A ghost move keeps the property that the player's cell holds no pellet. -/
theorem moveGhosts_not_mem_pellets (draws : Nat → Fin 4) (s : GameState)
    (hs : s.pacmanPosition ∉ s.pellets) :
    (moveGhosts draws s).pacmanPosition ∉ (moveGhosts draws s).pellets := by
  by_cases h : s.pacmanPosition ∈ moveGhosts.mapGhosts s.pacmanPosition s.ghosts draws
  · rw [moveGhosts_of_mem h]
    exact (startConfiguration_gameOver _).not_mem_pellets
  · rw [moveGhosts_of_not_mem h]
    simpa using hs

/-- C3, pellet exclusivity: in every state reachable from the initial state by
`handleInput`, `movePacman` and `moveGhosts` calls, with any keys and any
draws, the player's position is not an element of the pellets list. -/
theorem pellet_exclusivity (s : GameState) (h : Reachable s) :
    s.pacmanPosition ∉ s.pellets := by
  induction h with
  | init => exact startConfiguration_initialState.not_mem_pellets
  | handleInput key _ ih => rw [handleInput_pacmanPosition, handleInput_pellets]; exact ih
  | movePacman _ _ => exact movePacman_not_mem_pellets _
  | moveGhosts draws _ ih => exact moveGhosts_not_mem_pellets draws _ ih

/-- C3 at a concrete run: key Right, one player tick (the player eats the
pellet of cell 113), one ghost tick with all draws Up. -/
theorem pellet_exclusivity_witness :
    Reachable (moveGhosts (constDraws 0) (movePacman (handleInput "ArrowRight" initialState))) ∧
    (moveGhosts (constDraws 0) (movePacman (handleInput "ArrowRight" initialState))).pacmanPosition
      ∉ (moveGhosts (constDraws 0) (movePacman (handleInput "ArrowRight" initialState))).pellets :=
  ⟨Reachable.moveGhosts _ (Reachable.movePacman (Reachable.handleInput _ Reachable.init)),
   pellet_exclusivity _
    (Reachable.moveGhosts _ (Reachable.movePacman (Reachable.handleInput _ Reachable.init)))⟩

/-! ## Score across ticks (C4) -/

theorem reachable_iterate_movePacman (n : Nat) {s : GameState} (h : Reachable s) :
    Reachable (movePacman^[n] s) := by
  induction n with
  | zero => exact h
  | succ k ih => rw [Function.iterate_succ_apply']; exact Reachable.movePacman ih

theorem reachable_besideCornerGhost : Reachable besideCornerGhost :=
  reachable_iterate_movePacman 6
    (Reachable.handleInput "ArrowLeft"
      (reachable_iterate_movePacman 7 (Reachable.handleInput "ArrowUp" Reachable.init)))

/-- C4 as stated fails: the state reached from the initial state by key Up,
seven player ticks, key Left, six player ticks has the player at cell 1 with
score 130 and a ghost on cell 0; the next player tick walks into that ghost,
the capture resets the game, and the score after the tick is 0 < 130. -/
theorem score_drops_on_capture :
    Reachable besideCornerGhost ∧
    besideCornerGhost.pacmanPosition = 1 ∧ besideCornerGhost.score = 130 ∧
    (Tick.run Tick.pacman besideCornerGhost).score = 0 ∧
    ¬ (besideCornerGhost.score ≤ (Tick.run Tick.pacman besideCornerGhost).score) :=
  ⟨reachable_besideCornerGhost, by decide, by decide, by decide, by decide⟩

/-- C4, amended: for every state and every tick (a `movePacman` call or a
`moveGhosts` call with any draws) in which no capture fires, that is, which
shows no game-over alert, the score after the tick is at least the score
before it. -/
theorem score_monotone_without_capture (t : Tick) (s : GameState)
    (h : (t.run s).alerts = s.alerts) : s.score ≤ (t.run s).score := by
  cases t with
  | pacman =>
    simp only [Tick.run] at h ⊢
    by_cases hm : movePacman.newPosition s ∈ s.ghosts
    · rw [movePacman_of_mem hm, gameOver_alerts] at h
      omega
    · rw [movePacman_of_not_mem hm]
      by_cases hp : movePacman.newPosition s ∈ s.pellets
      · simp [hp]
      · simp [hp]
  | ghosts draws =>
    simp only [Tick.run] at h ⊢
    by_cases hm : s.pacmanPosition ∈ moveGhosts.mapGhosts s.pacmanPosition s.ghosts draws
    · rw [moveGhosts_of_mem hm, gameOver_alerts, updateGrid_alerts] at h
      simp at h
    · rw [moveGhosts_of_not_mem hm]
      simp

/-- C4, amended, at a concrete tick: after key Right the first player tick
shows no alert and takes the score from 0 to 10. -/
theorem score_monotone_without_capture_witness :
    (Tick.run Tick.pacman (handleInput "ArrowRight" initialState)).alerts
      = (handleInput "ArrowRight" initialState).alerts ∧
    (handleInput "ArrowRight" initialState).score
      ≤ (Tick.run Tick.pacman (handleInput "ArrowRight" initialState)).score :=
  ⟨by decide, score_monotone_without_capture Tick.pacman _ (by decide)⟩

/-! ## The player's move (C5, C6) -/

/-- C5: when the candidate cell `newPosition` holds no ghost, `movePacman`
moves the player there; if the cell is in `pellets`, the score grows by
exactly 10 and `pellets` becomes the old list without that cell (every other
entry kept, in order); if it is not, score and pellets are unchanged. -/
theorem movePacman_free_cell (s : GameState) (h : movePacman.newPosition s ∉ s.ghosts) :
    (movePacman s).pacmanPosition = movePacman.newPosition s ∧
    (movePacman.newPosition s ∈ s.pellets →
      (movePacman s).score = s.score + 10 ∧
      (movePacman s).pellets
        = s.pellets.filter (fun pos => decide (pos ≠ movePacman.newPosition s)) ∧
      movePacman.newPosition s ∉ (movePacman s).pellets ∧
      (∀ x, x ∈ (movePacman s).pellets ↔ x ∈ s.pellets ∧ x ≠ movePacman.newPosition s) ∧
      (movePacman s).pellets.Sublist s.pellets) ∧
    (movePacman.newPosition s ∉ s.pellets →
      (movePacman s).score = s.score ∧ (movePacman s).pellets = s.pellets) := by
  rw [movePacman_of_not_mem h]
  refine ⟨?_, ?_, ?_⟩
  · split <;> simp
  · intro hp
    have hf : s.pellets.filter (fun pos => pos != movePacman.newPosition s)
        = s.pellets.filter (fun pos => decide (pos ≠ movePacman.newPosition s)) := by
      apply List.filter_congr
      intro x _
      by_cases hx : x = movePacman.newPosition s <;> simp [hx]
    simp only [hp, if_true, updateGrid_score, updateGrid_pellets, hf]
    refine ⟨trivial, trivial, ?_, ?_, List.filter_sublist _⟩
    · simp [List.mem_filter]
    · intro x; simp [List.mem_filter]
  · intro hp
    simp [hp]

/-- C5 at a concrete state: after key Right the candidate cell of the initial
position is 113, which holds a pellet and no ghost. -/
theorem movePacman_free_cell_witness :
    movePacman.newPosition (handleInput "ArrowRight" initialState)
      ∉ (handleInput "ArrowRight" initialState).ghosts ∧
    (movePacman (handleInput "ArrowRight" initialState)).pacmanPosition = 113 ∧
    (movePacman (handleInput "ArrowRight" initialState)).pacmanPosition
      = movePacman.newPosition (handleInput "ArrowRight" initialState) :=
  ⟨by decide, by decide,
   (movePacman_free_cell (handleInput "ArrowRight" initialState) (by decide)).1⟩

theorem getRowCol_eq_of {r c r2 c2 : Int} (hr : 0 ≤ r) (hc : 0 ≤ c) (hc15 : c < 15)
    (h1 : r = r2) (h2 : c = c2) : getRowCol (r * 15 + c) = (r2, c2) := by
  rw [getRowCol_of_row_col hr hc hc15, h1, h2]

/-- C6, wraparound of the player's step: with the player on (row, col),
0 ≤ row, col < 15, the candidate cell of `movePacman` is ((row−1) mod 15, col)
for Up, ((row+1) mod 15, col) for Down, (row, (col−1) mod 15) for Left and
(row, (col+1) mod 15) for Right: Up from row 0 gives row 14, Down from row 14
gives row 0, Left from column 0 gives column 14, Right from column 14 gives
column 0, and otherwise the coordinate changes by exactly one. -/
theorem movePacman_candidate_wraps (s : GameState) (row col : Int)
    (hr0 : 0 ≤ row) (hr : row < 15) (hc0 : 0 ≤ col) (hc : col < 15)
    (hpos : s.pacmanPosition = row * 15 + col) :
    (s.currentDirection = some "ArrowUp" →
      getRowCol (movePacman.newPosition s) = ((row - 1) % 15, col) ∧
      (row = 0 → getRowCol (movePacman.newPosition s) = (14, col)) ∧
      (row ≠ 0 → getRowCol (movePacman.newPosition s) = (row - 1, col))) ∧
    (s.currentDirection = some "ArrowDown" →
      getRowCol (movePacman.newPosition s) = ((row + 1) % 15, col) ∧
      (row = 14 → getRowCol (movePacman.newPosition s) = (0, col)) ∧
      (row ≠ 14 → getRowCol (movePacman.newPosition s) = (row + 1, col))) ∧
    (s.currentDirection = some "ArrowLeft" →
      getRowCol (movePacman.newPosition s) = (row, (col - 1) % 15) ∧
      (col = 0 → getRowCol (movePacman.newPosition s) = (row, 14)) ∧
      (col ≠ 0 → getRowCol (movePacman.newPosition s) = (row, col - 1))) ∧
    (s.currentDirection = some "ArrowRight" →
      getRowCol (movePacman.newPosition s) = (row, (col + 1) % 15) ∧
      (col = 14 → getRowCol (movePacman.newPosition s) = (row, 0)) ∧
      (col ≠ 14 → getRowCol (movePacman.newPosition s) = (row, col + 1))) := by
  have hrc : getRowCol (row * 15 + col) = (row, col) := getRowCol_of_row_col hr0 hc0 hc
  have e1 : (some "ArrowDown" : Option String) ≠ some "ArrowUp" := by decide
  have e2 : (some "ArrowLeft" : Option String) ≠ some "ArrowUp" := by decide
  have e3 : (some "ArrowLeft" : Option String) ≠ some "ArrowDown" := by decide
  have e4 : (some "ArrowRight" : Option String) ≠ some "ArrowUp" := by decide
  have e5 : (some "ArrowRight" : Option String) ≠ some "ArrowDown" := by decide
  have e6 : (some "ArrowRight" : Option String) ≠ some "ArrowLeft" := by decide
  refine ⟨?_, ?_, ?_, ?_⟩
  · intro hd
    have hnew : movePacman.newPosition s = (if row = 0 then 15 - 1 else row - 1) * 15 + col := by
      simp only [movePacman.newPosition, movePacman.newRow, movePacman.newCol, hd, hpos, hrc,
        GRID_SIZE, if_true]
    rw [hnew]
    refine ⟨?_, ?_, ?_⟩
    · split_ifs <;> apply getRowCol_eq_of <;> omega
    · intro h0; rw [if_pos h0]; apply getRowCol_eq_of <;> omega
    · intro h0; rw [if_neg h0]; apply getRowCol_eq_of <;> omega
  · intro hd
    have hnew : movePacman.newPosition s
        = (if row = 15 - 1 then 0 else row + 1) * 15 + col := by
      simp only [movePacman.newPosition, movePacman.newRow, movePacman.newCol, hd, hpos, hrc,
        GRID_SIZE, if_true, if_neg e1]
    rw [hnew]
    refine ⟨?_, ?_, ?_⟩
    · split_ifs <;> apply getRowCol_eq_of <;> omega
    · intro h0; rw [if_pos (by omega)]; apply getRowCol_eq_of <;> omega
    · intro h0; rw [if_neg (by omega)]; apply getRowCol_eq_of <;> omega
  · intro hd
    have hnew : movePacman.newPosition s
        = row * 15 + (if col = 0 then 15 - 1 else col - 1) := by
      simp only [movePacman.newPosition, movePacman.newRow, movePacman.newCol, hd, hpos, hrc,
        GRID_SIZE, if_true, if_neg e2, if_neg e3]
    rw [hnew]
    refine ⟨?_, ?_, ?_⟩
    · split_ifs <;> apply getRowCol_eq_of <;> omega
    · intro h0; rw [if_pos h0]; apply getRowCol_eq_of <;> omega
    · intro h0; rw [if_neg h0]; apply getRowCol_eq_of <;> omega
  · intro hd
    have hnew : movePacman.newPosition s
        = row * 15 + (if col = 15 - 1 then 0 else col + 1) := by
      simp only [movePacman.newPosition, movePacman.newRow, movePacman.newCol, hd, hpos, hrc,
        GRID_SIZE, if_true, if_neg e4, if_neg e5, if_neg e6]
    rw [hnew]
    refine ⟨?_, ?_, ?_⟩
    · split_ifs <;> apply getRowCol_eq_of <;> omega
    · intro h0; rw [if_pos (by omega)]; apply getRowCol_eq_of <;> omega
    · intro h0; rw [if_neg (by omega)]; apply getRowCol_eq_of <;> omega

/-- C6 at a concrete state: the player on (0,7) heading Up has candidate
cell (14,7). -/
theorem movePacman_candidate_wraps_witness :
    upFromTopRow.pacmanPosition = 0 * 15 + 7 ∧
    upFromTopRow.currentDirection = some "ArrowUp" ∧
    getRowCol (movePacman.newPosition upFromTopRow) = (14, 7) :=
  ⟨rfl, rfl,
   ((movePacman_candidate_wraps upFromTopRow 0 7 (by decide) (by decide) (by decide)
      (by decide) rfl).1 rfl).2.1 rfl⟩

/-! ## Wandering ghosts (C7) -/

/-- C7, wander bound: for a ghost on cell `g` and the player on cell `p` at
Manhattan distance above 3, the cell the `moveGhosts` callback returns is, for
every draw, one of the four cells one wraparound step Up, Down, Left or Right
from `g` (draw 0, 1, 2, 3 in that order), and each of the four cells is
returned for some draw.  It holds for every cell `g ≥ 0` and every `p`, in
particular for `g` and `p` in [0,225). -/
theorem wander_is_one_wraparound_step (g p : Int) (hg0 : 0 ≤ g)
    (hd : DETECTION_RANGE < moveGhosts.distance p g) :
    (∀ i : Fin 4, moveGhosts.newPosition p g i ∈
      [Spec.stepFrom g Spec.Direction.Up, Spec.stepFrom g Spec.Direction.Down,
       Spec.stepFrom g Spec.Direction.Left, Spec.stepFrom g Spec.Direction.Right]) ∧
    (∀ d : Spec.Direction, ∃ i : Fin 4, moveGhosts.newPosition p g i = Spec.stepFrom g d) ∧
    moveGhosts.newPosition p g 0 = Spec.stepFrom g Spec.Direction.Up ∧
    moveGhosts.newPosition p g 1 = Spec.stepFrom g Spec.Direction.Down ∧
    moveGhosts.newPosition p g 2 = Spec.stepFrom g Spec.Direction.Left ∧
    moveGhosts.newPosition p g 3 = Spec.stepFrom g Spec.Direction.Right := by
  have hnd : ¬ moveGhosts.distance p g ≤ DETECTION_RANGE := not_le.mpr hd
  have h1 : (getRowCol g).1 = g / 15 := getRowCol_fst g
  have h2 : (getRowCol g).2 = g % 15 := getRowCol_snd hg0
  have d0 : directions[(0 : Fin 4).val]? = some "ArrowUp" := rfl
  have d1 : directions[(1 : Fin 4).val]? = some "ArrowDown" := rfl
  have d2 : directions[(2 : Fin 4).val]? = some "ArrowLeft" := rfl
  have d3 : directions[(3 : Fin 4).val]? = some "ArrowRight" := rfl
  have e1 : (some "ArrowDown" : Option String) ≠ some "ArrowUp" := by decide
  have e2 : (some "ArrowLeft" : Option String) ≠ some "ArrowUp" := by decide
  have e3 : (some "ArrowLeft" : Option String) ≠ some "ArrowDown" := by decide
  have e4 : (some "ArrowRight" : Option String) ≠ some "ArrowUp" := by decide
  have e5 : (some "ArrowRight" : Option String) ≠ some "ArrowDown" := by decide
  have e6 : (some "ArrowRight" : Option String) ≠ some "ArrowLeft" := by decide
  have k0 : moveGhosts.newPosition p g 0 = Spec.stepFrom g Spec.Direction.Up := by
    simp only [moveGhosts.newPosition, moveGhosts.newRow, moveGhosts.newCol, if_neg hnd, d0,
      if_true, h1, h2, GRID_SIZE, Spec.stepFrom, Spec.step, Spec.toRowCol, Spec.toIndex]
    split_ifs <;> rfl
  have k1 : moveGhosts.newPosition p g 1 = Spec.stepFrom g Spec.Direction.Down := by
    simp only [moveGhosts.newPosition, moveGhosts.newRow, moveGhosts.newCol, if_neg hnd, d1,
      if_true, if_neg e1, h1, h2, GRID_SIZE, Spec.stepFrom, Spec.step, Spec.toRowCol,
      Spec.toIndex]
    split_ifs <;> rfl
  have k2 : moveGhosts.newPosition p g 2 = Spec.stepFrom g Spec.Direction.Left := by
    simp only [moveGhosts.newPosition, moveGhosts.newRow, moveGhosts.newCol, if_neg hnd, d2,
      if_true, if_neg e2, if_neg e3, h1, h2, GRID_SIZE, Spec.stepFrom, Spec.step,
      Spec.toRowCol, Spec.toIndex]
    split_ifs <;> rfl
  have k3 : moveGhosts.newPosition p g 3 = Spec.stepFrom g Spec.Direction.Right := by
    simp only [moveGhosts.newPosition, moveGhosts.newRow, moveGhosts.newCol, if_neg hnd, d3,
      if_true, if_neg e4, if_neg e5, if_neg e6, h1, h2, GRID_SIZE, Spec.stepFrom, Spec.step,
      Spec.toRowCol, Spec.toIndex]
    split_ifs <;> rfl
  refine ⟨?_, ?_, k0, k1, k2, k3⟩
  · intro i
    fin_cases i
    · simp only [List.mem_cons]; left; exact k0
    · simp only [List.mem_cons]; right; left; exact k1
    · simp only [List.mem_cons]; right; right; left; exact k2
    · simp only [List.mem_cons]; right; right; right; left; exact k3
  · intro d
    cases d
    · exact ⟨0, k0⟩
    · exact ⟨1, k1⟩
    · exact ⟨2, k2⟩
    · exact ⟨3, k3⟩

/-- C7 at a concrete pair: the ghost of corner 0 with the player on the
centre cell 112 (distance 14) goes with draw 0 (Up) to cell 210 = (14,0). -/
theorem wander_is_one_wraparound_step_witness :
    DETECTION_RANGE < moveGhosts.distance 112 0 ∧
    Spec.stepFrom 0 Spec.Direction.Up = 210 ∧
    moveGhosts.newPosition 112 0 0 = Spec.stepFrom 0 Spec.Direction.Up :=
  ⟨by decide, by decide,
   (wander_is_one_wraparound_step 0 112 (by decide) (by decide)).2.2.1⟩

/-! ## Capture and reset (C8, C9, C10) -/

theorem gameOver_eq (s : GameState) :
    gameOver s =
      { initialState with alerts := s.alerts + 1, ghostTimerRunning := s.ghostTimerRunning } := by
  unfold gameOver
  rw [resetGame_eq, initialState_eq]

/-- C8, capture by walking into a ghost: when the candidate cell of
`movePacman` is occupied by a ghost, the move is not applied; `movePacman`
is `gameOver`: one game-over alert is shown and the result is the start
configuration (player 112, ghosts [0,14,210,224], score 0, the full list of
220 pellets, no direction, no timer handle). -/
theorem movePacman_into_ghost (s : GameState) (h : movePacman.newPosition s ∈ s.ghosts) :
    movePacman s = gameOver s ∧
    StartConfiguration (movePacman s) ∧
    (movePacman s).pellets.length = 220 ∧
    (movePacman s).alerts = s.alerts + 1 ∧
    movePacman s =
      { initialState with alerts := s.alerts + 1, ghostTimerRunning := s.ghostTimerRunning } := by
  rw [movePacman_of_mem h]
  refine ⟨rfl, startConfiguration_gameOver s, ?_, gameOver_alerts s, gameOver_eq s⟩
  rw [(startConfiguration_gameOver s).2.2.2.1]
  decide

/-- C8 at a concrete state: the player on cell 1 heading Left with the ghost
of corner 0 as left neighbour. -/
theorem movePacman_into_ghost_witness :
    movePacman.newPosition besideCornerGhost ∈ besideCornerGhost.ghosts ∧
    StartConfiguration (movePacman besideCornerGhost) :=
  ⟨by decide, (movePacman_into_ghost besideCornerGhost (by decide)).2.1⟩

theorem mapGhosts_forall₂ (p : Int) (gs : List Int) (draws : Nat → Fin 4) :
    List.Forall₂ (fun old new => ∃ i : Fin 4, new = moveGhosts.newPosition p old i)
      gs (moveGhosts.mapGhosts p gs draws) := by
  induction gs generalizing draws with
  | nil => exact List.Forall₂.nil
  | cons g rest ih =>
    unfold moveGhosts.mapGhosts
    split
    · exact List.Forall₂.cons ⟨draws 0, rfl⟩ (ih draws)
    · exact List.Forall₂.cons ⟨draws 0, rfl⟩ (ih _)

/-- C9, capture by a ghost move: `moveGhosts` computes the new ghost list
entry by entry, each new entry from the old entry at the same index and the
unchanged player position (with some draw).  If a new entry equals the
player's position, one game-over alert is shown and the result is the start
configuration; if none does, no alert is shown, the new list is the ghost
list of the result, and the player has not moved. -/
theorem moveGhosts_capture (draws : Nat → Fin 4) (s : GameState) :
    List.Forall₂ (fun old new => ∃ i : Fin 4, new = moveGhosts.newPosition s.pacmanPosition old i)
      s.ghosts (moveGhosts.mapGhosts s.pacmanPosition s.ghosts draws) ∧
    (moveGhosts.mapGhosts s.pacmanPosition s.ghosts draws).length = s.ghosts.length ∧
    (s.pacmanPosition ∈ moveGhosts.mapGhosts s.pacmanPosition s.ghosts draws →
      StartConfiguration (moveGhosts draws s) ∧ (moveGhosts draws s).alerts = s.alerts + 1) ∧
    (s.pacmanPosition ∉ moveGhosts.mapGhosts s.pacmanPosition s.ghosts draws →
      (moveGhosts draws s).ghosts = moveGhosts.mapGhosts s.pacmanPosition s.ghosts draws ∧
      (moveGhosts draws s).pacmanPosition = s.pacmanPosition ∧
      (moveGhosts draws s).alerts = s.alerts) := by
  refine ⟨mapGhosts_forall₂ _ _ _, (mapGhosts_forall₂ _ _ _).length_eq.symm, ?_, ?_⟩
  · intro h
    rw [moveGhosts_of_mem h]
    exact ⟨startConfiguration_gameOver _, by rw [gameOver_alerts, updateGrid_alerts]⟩
  · intro h
    rw [moveGhosts_of_not_mem h]
    exact ⟨by simp, by simp, by simp⟩

theorem resetGame_eq_initialState (s : GameState) :
    resetGame s =
      { initialState with alerts := s.alerts, ghostTimerRunning := s.ghostTimerRunning } := by
  rw [resetGame_eq, initialState_eq]

/-- C10, reset is deterministic and idempotent: for every state, `resetGame`
yields the start configuration (player 112 = floor(225/2), ghosts
[0,14,210,224], score 0, pellets the cells 0..224 in ascending order without
0, 14, 112, 210, 224, direction cleared, timer handle cleared and the fast
timer stopped), which is the configuration of the initial state; two states
after `resetGame` have the same six game variables, and resetting twice is
resetting once. -/
theorem resetGame_idempotent (s : GameState) :
    StartConfiguration (resetGame s) ∧
    StartConfiguration initialState ∧
    PACMAN_START_POSITION = 112 ∧ (112 : Int) = 225 / 2 ∧
    (resetGame s).pellets.length = 220 ∧
    List.Pairwise (fun a b => a < b) (resetGame s).pellets ∧
    (resetGame s).movementTimerRunning = false ∧
    (resetGame s).scoreText = 0 ∧ (resetGame s).victoryHidden = true ∧
    resetGame s
      = { initialState with alerts := s.alerts, ghostTimerRunning := s.ghostTimerRunning } ∧
    (∀ t : GameState,
      (resetGame t).pacmanPosition = (resetGame s).pacmanPosition ∧
      (resetGame t).ghosts = (resetGame s).ghosts ∧
      (resetGame t).score = (resetGame s).score ∧
      (resetGame t).pellets = (resetGame s).pellets ∧
      (resetGame t).currentDirection = (resetGame s).currentDirection ∧
      (resetGame t).movementInterval = (resetGame s).movementInterval) ∧
    resetGame (resetGame s) = resetGame s := by
  have hS := startConfiguration_resetGame s
  refine ⟨hS, startConfiguration_initialState, by decide, by decide, ?_, ?_, ?_, ?_, ?_,
    resetGame_eq_initialState s, ?_, ?_⟩
  · rw [hS.2.2.2.1]; decide
  · rw [hS.2.2.2.1]; decide
  · rw [resetGame_eq]
  · rw [resetGame_eq]
  · rw [resetGame_eq]
  · intro t
    rw [resetGame_eq, resetGame_eq]
    exact ⟨rfl, rfl, rfl, rfl, rfl, rfl⟩
  · rw [resetGame_eq, resetGame_eq]

/-! ## End-to-end run (C11) -/

/-- C11, end-to-end scenario: from the initial state (player on 112 = (7,7),
ghosts on [0,14,210,224]), key Right and four `movePacman` calls with no
`moveGhosts` call in between leave the player on cell 116 = (7,11), reached
through 113, 114, 115 without wrap; the pellets of 113, 114, 115 and 116 are
removed, every other pellet is kept, the score is 40 and no ghost has moved. -/
theorem four_steps_right :
    initialState.pacmanPosition = 112 ∧ getRowCol 112 = (7, 7) ∧
    initialState.ghosts = [0, 14, 210, 224] ∧
    (movePacman (handleInput "ArrowRight" initialState)).pacmanPosition = 113 ∧
    (movePacman^[2] (handleInput "ArrowRight" initialState)).pacmanPosition = 114 ∧
    (movePacman^[3] (handleInput "ArrowRight" initialState)).pacmanPosition = 115 ∧
    afterFourRight.pacmanPosition = 116 ∧ getRowCol 116 = (7, 11) ∧
    afterFourRight.pellets
      = initialState.pellets.filter
          (fun i => decide (i ≠ 113 ∧ i ≠ 114 ∧ i ≠ 115 ∧ i ≠ 116)) ∧
    (113 : Int) ∈ initialState.pellets ∧ (114 : Int) ∈ initialState.pellets ∧
    (115 : Int) ∈ initialState.pellets ∧ (116 : Int) ∈ initialState.pellets ∧
    afterFourRight.pellets.length = 216 ∧
    afterFourRight.score = 40 ∧
    afterFourRight.ghosts = [0, 14, 210, 224] ∧
    afterFourRight.alerts = 0 := by
  decide

/-! ## Reachable states are well formed -/

theorem movePacman_newPosition_range (s : GameState) (h0 : 0 ≤ s.pacmanPosition)
    (h1 : s.pacmanPosition < 225) :
    0 ≤ movePacman.newPosition s ∧ movePacman.newPosition s < 225 := by
  unfold movePacman.newPosition movePacman.newRow movePacman.newCol
  simp only [getRowCol_fst, getRowCol_snd h0, GRID_SIZE]
  split_ifs <;> omega

theorem movePacman_newPosition_of_none (s : GameState) (h0 : 0 ≤ s.pacmanPosition)
    (hd : s.currentDirection = none) : movePacman.newPosition s = s.pacmanPosition := by
  unfold movePacman.newPosition movePacman.newRow movePacman.newCol
  simp only [getRowCol_fst, getRowCol_snd h0, GRID_SIZE, hd]
  simp
  omega

theorem moveGhosts_newPosition_range (p g : Int) (i : Fin 4) (h0 : 0 ≤ g) (h1 : g < 225) :
    0 ≤ moveGhosts.newPosition p g i ∧ moveGhosts.newPosition p g i < 225 := by
  unfold moveGhosts.newPosition moveGhosts.newRow moveGhosts.newCol
  simp only [getRowCol_fst, getRowCol_snd h0, GRID_SIZE, mathMin, mathMax]
  split_ifs <;> omega

theorem updateGrid_victoryHidden (s : GameState) :
    (updateGrid s).victoryHidden = (if s.pellets = [] then false else s.victoryHidden) := by
  unfold updateGrid showVictoryMessage
  by_cases h : s.pellets = []
  · simp [h]
  · have h2 : ¬ s.pellets.length = 0 := by simpa [List.length_eq_zero] using h
    simp [h, h2]

theorem startPellets_nodup :
    (((List.range 225).map Int.ofNat).filter
      (fun i => decide (i ≠ 0 ∧ i ≠ 14 ∧ i ≠ 112 ∧ i ≠ 210 ∧ i ≠ 224))).Nodup := by
  apply List.Nodup.filter
  exact (List.nodup_range 225).map Int.ofNat_injective

theorem startPellets_length :
    (((List.range 225).map Int.ofNat).filter
      (fun i => decide (i ≠ 0 ∧ i ≠ 14 ∧ i ≠ 112 ∧ i ≠ 210 ∧ i ≠ 224))).length = 220 := by
  decide

theorem wellFormed_of_start {s : GameState} (h : StartConfiguration s)
    (hv : s.victoryHidden = true) : WellFormed s := by
  obtain ⟨hp, hg, hs, hpel, hd, _⟩ := h
  have hne : s.pellets ≠ [] := by
    intro h0
    have hl : s.pellets.length = 220 := by rw [hpel]; exact startPellets_length
    rw [h0] at hl
    simp at hl
  refine ⟨by omega, by omega, by rw [hg]; rfl, ?_, ?_, ?_, ?_, ?_, fun _ => hs, ?_⟩
  · rw [hg]; intro g hmem
    simp only [List.mem_cons, List.mem_singleton, List.not_mem_nil, or_false] at hmem
    omega
  · rw [hg, hp]; decide
  · exact StartConfiguration.not_mem_pellets ⟨hp, hg, hs, hpel, hd, ‹_›⟩
  · rw [hpel]; exact startPellets_nodup
  · rw [hpel, startPellets_length, hs]; rfl
  · rw [hv]; simp [hne]

theorem wellFormed_resetGame (s : GameState) : WellFormed (resetGame s) :=
  wellFormed_of_start (startConfiguration_resetGame s) (by rw [resetGame_eq])

theorem wellFormed_gameOver (s : GameState) : WellFormed (gameOver s) :=
  wellFormed_resetGame _

theorem wellFormed_initialState : WellFormed initialState :=
  wellFormed_of_start startConfiguration_initialState (by rw [initialState_eq])

theorem handleInput_of_not_mem {key : String} {s : GameState} (h : key ∉ validDirections) :
    handleInput key s = s := by
  unfold handleInput
  simp [h]

theorem handleInput_of_mem {key : String} {s : GameState} (h : key ∈ validDirections) :
    handleInput key s =
      { s with
        currentDirection := some key
        movementInterval := true
        movementTimerRunning := (if s.movementInterval then s.movementTimerRunning else true) } := by
  unfold handleInput
  cases hm : s.movementInterval <;> simp [h, hm]

theorem wellFormed_handleInput (key : String) {s : GameState} (h : WellFormed s) :
    WellFormed (handleInput key s) := by
  by_cases hk : key ∈ validDirections
  · rw [handleInput_of_mem hk]
    exact ⟨h.1, h.2, h.3, h.4, h.5, h.6, h.7, h.8, fun hn => by simp at hn, h.10⟩
  · rw [handleInput_of_not_mem hk]; exact h

theorem length_filter_ne_of_nodup {l : List Int} (hl : l.Nodup) {a : Int} (ha : a ∈ l) :
    ((l.filter (fun pos => pos != a)).length : Int) + 1 = l.length := by
  rw [← hl.erase_eq_filter a, List.length_erase_of_mem ha]
  have : 0 < l.length := List.length_pos_of_mem ha
  omega

theorem wellFormed_movePacman {s : GameState} (h : WellFormed s) :
    WellFormed (movePacman s) := by
  by_cases hm : movePacman.newPosition s ∈ s.ghosts
  · rw [movePacman_of_mem hm]; exact wellFormed_gameOver s
  · rw [movePacman_of_not_mem hm]
    have hr := movePacman_newPosition_range s h.pacman_nonneg h.pacman_lt
    by_cases hp : movePacman.newPosition s ∈ s.pellets
    · have hlen := length_filter_ne_of_nodup h.pellets_nodup hp
      have hacc := h.accounting
      refine ⟨by simp [hp, hr.1], by simp [hp, hr.2], by simp [hp, h.ghosts_length],
        by simpa [hp] using h.ghosts_range, by simpa [hp] using hm, by simp [hp],
        by simpa [hp] using h.pellets_nodup.filter _, ?_, ?_, ?_⟩
      · simp only [hp, if_true, updateGrid_score, updateGrid_pellets]
        omega
      · intro hd
        simp only [hp, if_true, updateGrid_currentDirection] at hd
        exfalso
        rw [movePacman_newPosition_of_none s h.pacman_nonneg hd] at hp
        exact h.no_pellet hp
      · rw [updateGrid_victoryHidden, updateGrid_pellets]
        simp only [hp, if_true]
        split
        · rename_i he; simp [he]
        · rename_i he
          constructor
          · intro hv
            have := h.banner.mp hv
            rw [this] at hp
            simp at hp
          · intro h0; exact absurd h0 he
    · refine ⟨by simp [hp, hr.1], by simp [hp, hr.2], by simp [hp, h.ghosts_length],
        by simpa [hp] using h.ghosts_range, by simpa [hp] using hm, by simp [hp],
        by simpa [hp] using h.pellets_nodup, by simpa [hp] using h.accounting,
        by simpa [hp] using h.idle_score, ?_⟩
      rw [updateGrid_victoryHidden, updateGrid_pellets]
      simp only [hp, if_false]
      split
      · rename_i he; simp [he]
      · exact h.banner

theorem mem_mapGhosts {p : Int} {gs : List Int} {draws : Nat → Fin 4} {g : Int}
    (h : g ∈ moveGhosts.mapGhosts p gs draws) :
    ∃ old ∈ gs, ∃ i : Fin 4, g = moveGhosts.newPosition p old i := by
  induction gs generalizing draws with
  | nil => simp [moveGhosts.mapGhosts] at h
  | cons a rest ih =>
    unfold moveGhosts.mapGhosts at h
    split at h
    · rcases List.mem_cons.mp h with rfl | h2
      · exact ⟨a, List.mem_cons_self _ _, draws 0, rfl⟩
      · obtain ⟨old, ho, i, hi⟩ := ih h2
        exact ⟨old, List.mem_cons_of_mem _ ho, i, hi⟩
    · rcases List.mem_cons.mp h with rfl | h2
      · exact ⟨a, List.mem_cons_self _ _, draws 0, rfl⟩
      · obtain ⟨old, ho, i, hi⟩ := ih h2
        exact ⟨old, List.mem_cons_of_mem _ ho, i, hi⟩

theorem wellFormed_moveGhosts (draws : Nat → Fin 4) {s : GameState} (h : WellFormed s) :
    WellFormed (moveGhosts draws s) := by
  by_cases hm : s.pacmanPosition ∈ moveGhosts.mapGhosts s.pacmanPosition s.ghosts draws
  · rw [moveGhosts_of_mem hm]; exact wellFormed_gameOver _
  · rw [moveGhosts_of_not_mem hm]
    have hf := mapGhosts_forall₂ s.pacmanPosition s.ghosts draws
    refine ⟨by simp [h.pacman_nonneg], by simp [h.pacman_lt],
      by simp [← hf.length_eq, h.ghosts_length], ?_, by simpa using hm,
      by simpa using h.no_pellet, by simpa using h.pellets_nodup, by simpa using h.accounting,
      by simpa using h.idle_score, ?_⟩
    · intro g hg
      simp only [updateGrid_ghosts] at hg
      obtain ⟨old, hold, i, rfl⟩ := mem_mapGhosts hg
      exact moveGhosts_newPosition_range _ _ _ (h.ghosts_range old hold).1
        (h.ghosts_range old hold).2
    · rw [updateGrid_victoryHidden, updateGrid_pellets]
      dsimp only
      split
      · rename_i he; simp [he]
      · exact h.banner

theorem Reachable.withReset {s : GameState} (h : Reachable s) : ReachableWithReset s := by
  induction h with
  | init => exact ReachableWithReset.init
  | handleInput key _ ih => exact ReachableWithReset.handleInput key ih
  | movePacman _ ih => exact ReachableWithReset.movePacman ih
  | moveGhosts draws _ ih => exact ReachableWithReset.moveGhosts draws ih

theorem wellFormed_of_reachableWithReset {s : GameState} (h : ReachableWithReset s) :
    WellFormed s := by
  induction h with
  | init => exact wellFormed_initialState
  | handleInput key _ ih => exact wellFormed_handleInput key ih
  | movePacman _ ih => exact wellFormed_movePacman ih
  | moveGhosts draws _ ih => exact wellFormed_moveGhosts draws ih
  | resetGame _ _ => exact wellFormed_resetGame _

theorem wellFormed_of_reachable {s : GameState} (h : Reachable s) : WellFormed s :=
  wellFormed_of_reachableWithReset h.withReset

theorem mathAbs_eq_abs (x : Int) : mathAbs x = |x| := by
  unfold mathAbs
  split
  · rename_i h; rw [abs_of_neg h]
  · rename_i h; rw [abs_of_nonneg (not_lt.mp h)]

theorem distance_of_row_col {gr gc pr pc : Int} (hgr : 0 ≤ gr) (hgc : 0 ≤ gc) (hgc15 : gc < 15)
    (hpr : 0 ≤ pr) (hpc : 0 ≤ pc) (hpc15 : pc < 15) :
    moveGhosts.distance (pr * 15 + pc) (gr * 15 + gc) = mathAbs (gr - pr) + mathAbs (gc - pc) := by
  unfold moveGhosts.distance
  rw [getRowCol_of_row_col hgr hgc hgc15, getRowCol_of_row_col hpr hpc hpc15]

/-- The chase branch of the callback, in coordinates. -/
theorem chase_newPosition {gr gc pr pc : Int} (hgr : 0 ≤ gr) (hgc : 0 ≤ gc) (hgc15 : gc < 15)
    (hpr : 0 ≤ pr) (hpc : 0 ≤ pc) (hpc15 : pc < 15)
    (hd : mathAbs (gr - pr) + mathAbs (gc - pc) ≤ 3) (i : Fin 4) :
    moveGhosts.newPosition (pr * 15 + pc) (gr * 15 + gc) i
      = (if gr < pr then mathMin (gr + 1) 14 else mathMax (gr - 1) 0) * 15
        + (if gc < pc then mathMin (gc + 1) 14 else mathMax (gc - 1) 0) := by
  have hdist := distance_of_row_col hgr hgc hgc15 hpr hpc hpc15
  have hin : moveGhosts.distance (pr * 15 + pc) (gr * 15 + gc) ≤ DETECTION_RANGE := by
    rw [hdist]; exact hd
  unfold moveGhosts.newPosition moveGhosts.newRow moveGhosts.newCol
  simp only [if_pos hin, getRowCol_of_row_col hgr hgc hgc15,
    getRowCol_of_row_col hpr hpc hpc15, GRID_SIZE]
  rfl

/-- The wander branch of the callback: draws 0 (Up) and 1 (Down) give different cells. -/
theorem wander_up_ne_down {p g : Int} (h0 : 0 ≤ g)
    (hd : ¬ moveGhosts.distance p g ≤ DETECTION_RANGE) :
    moveGhosts.newPosition p g 0 ≠ moveGhosts.newPosition p g 1 := by
  have d0 : directions[(0 : Fin 4).val]? = some "ArrowUp" := rfl
  have d1 : directions[(1 : Fin 4).val]? = some "ArrowDown" := rfl
  have e1 : (some "ArrowDown" : Option String) ≠ some "ArrowUp" := by decide
  unfold moveGhosts.newPosition moveGhosts.newRow moveGhosts.newCol
  simp only [if_neg hd, d0, d1, if_true, if_neg e1, getRowCol_fst, getRowCol_snd h0, GRID_SIZE]
  split_ifs <;> omega

/-! ## Victory (C12) -/

/-- From a state with one pellet left, right of the player heading Right, the
player tick empties `pellets` and `updateGrid` shows the victory banner and
stops both timers. -/
theorem movePacman_eats_last_pellet :
    lastPelletState.pellets ≠ [] ∧ lastPelletState.victoryHidden = true ∧
    (movePacman lastPelletState).pellets = [] ∧
    (movePacman lastPelletState).victoryHidden = false ∧
    (movePacman lastPelletState).score = 2200 ∧
    (movePacman lastPelletState).movementTimerRunning = false ∧
    (movePacman lastPelletState).ghostTimerRunning = false := by
  decide

theorem moveGhosts_pellets (draws : Nat → Fin 4) (s : GameState) :
    (moveGhosts draws s).pellets = s.pellets ∨ StartConfiguration (moveGhosts draws s) := by
  by_cases hm : s.pacmanPosition ∈ moveGhosts.mapGhosts s.pacmanPosition s.ghosts draws
  · right; rw [moveGhosts_of_mem hm]; exact startConfiguration_gameOver _
  · left; rw [moveGhosts_of_not_mem hm]; simp

theorem StartConfiguration.pellets_ne_nil {s : GameState} (h : StartConfiguration s) :
    s.pellets ≠ [] := by
  intro h0
  have hl : s.pellets.length = 220 := by rw [h.2.2.2.1]; exact startPellets_length
  rw [h0] at hl
  simp at hl

/-- C12, victory condition: in every state reached from the initial state by
`movePacman`, `moveGhosts`, `resetGame` (and `handleInput`) calls, the victory
banner is shown if and only if the pellets list is empty, and `updateGrid`
shows it exactly when the list is empty; a `moveGhosts` call, a `resetGame`
call and a `handleInput` call never take the list from non-empty to empty (a
ghost move keeps the list or ends in the reset with all 220 pellets), so
only a `movePacman` call does. -/
theorem victory_iff_no_pellets (s : GameState) (h : ReachableWithReset s) :
    (s.victoryHidden = false ↔ s.pellets = []) ∧
    ((updateGrid s).victoryHidden = false ↔ s.pellets = []) ∧
    (∀ draws : Nat → Fin 4, s.pellets ≠ [] → (moveGhosts draws s).pellets ≠ []) ∧
    (∀ draws : Nat → Fin 4,
      (moveGhosts draws s).pellets = s.pellets ∨ (moveGhosts draws s).pellets.length = 220) ∧
    (resetGame s).pellets ≠ [] ∧
    (∀ key : String, (handleInput key s).pellets = s.pellets) := by
  have hw := wellFormed_of_reachableWithReset h
  refine ⟨hw.banner, ?_, ?_, ?_, (startConfiguration_resetGame s).pellets_ne_nil,
    fun key => handleInput_pellets key s⟩
  · rw [updateGrid_victoryHidden]
    split
    · rename_i he; simp [he]
    · exact hw.banner
  · intro draws hne
    rcases moveGhosts_pellets draws s with he | hs
    · rw [he]; exact hne
    · exact hs.pellets_ne_nil
  · intro draws
    rcases moveGhosts_pellets draws s with he | hs
    · left; exact he
    · right; rw [hs.2.2.2.1]; exact startPellets_length

/-- C12 at a concrete run: key Right and one player tick; the banner is
hidden and 219 pellets remain. -/
theorem victory_iff_no_pellets_witness :
    ReachableWithReset (movePacman (handleInput "ArrowRight" initialState)) ∧
    ((movePacman (handleInput "ArrowRight" initialState)).victoryHidden = false ↔
      (movePacman (handleInput "ArrowRight" initialState)).pellets = []) :=
  ⟨ReachableWithReset.movePacman (ReachableWithReset.handleInput _ ReachableWithReset.init),
   (victory_iff_no_pellets _
     (ReachableWithReset.movePacman
       (ReachableWithReset.handleInput _ ReachableWithReset.init))).1⟩

/-! ## Frame conditions (C13, C14, C15) -/

/-- C13, frame of a ghost move: when no new ghost position equals the
player's position, `moveGhosts` stores the new ghost list and leaves the
player position, the pellets list (also when a ghost lands on a pellet
cell), the score and the current direction as they were, as well as the
timer handle, the score text and the alert count; with a pellet left, the
whole state but the ghost list is unchanged. -/
theorem moveGhosts_frame (draws : Nat → Fin 4) (s : GameState)
    (h : s.pacmanPosition ∉ moveGhosts.mapGhosts s.pacmanPosition s.ghosts draws) :
    (moveGhosts draws s).ghosts = moveGhosts.mapGhosts s.pacmanPosition s.ghosts draws ∧
    (moveGhosts draws s).pacmanPosition = s.pacmanPosition ∧
    (moveGhosts draws s).pellets = s.pellets ∧
    (moveGhosts draws s).score = s.score ∧
    (moveGhosts draws s).currentDirection = s.currentDirection ∧
    (moveGhosts draws s).movementInterval = s.movementInterval ∧
    (moveGhosts draws s).scoreText = s.scoreText ∧
    (moveGhosts draws s).alerts = s.alerts ∧
    (s.pellets ≠ [] →
      moveGhosts draws s
        = { s with ghosts := moveGhosts.mapGhosts s.pacmanPosition s.ghosts draws }) := by
  rw [moveGhosts_of_not_mem h]
  refine ⟨by simp, by simp, by simp, by simp, by simp, by simp, by simp, by simp, ?_⟩
  intro hne
  unfold updateGrid
  rw [if_neg]
  simpa [List.length_eq_zero] using hne

/-- C13 at a concrete tick: from the initial state with every draw Down, the
ghost of corner 0 lands on cell 15, which holds a pellet before and after. -/
theorem moveGhosts_frame_witness :
    initialState.pacmanPosition
      ∉ moveGhosts.mapGhosts initialState.pacmanPosition initialState.ghosts (constDraws 1) ∧
    (moveGhosts (constDraws 1) initialState).ghosts = [15, 29, 0, 14] ∧
    (15 : Int) ∈ (moveGhosts (constDraws 1) initialState).pellets ∧
    (moveGhosts (constDraws 1) initialState).pellets = initialState.pellets :=
  ⟨by decide, by decide, by decide,
   (moveGhosts_frame (constDraws 1) initialState (by decide)).2.2.1⟩

theorem mem_validDirections (key : String) :
    key ∈ validDirections ↔
      key = "ArrowUp" ∨ key = "ArrowDown" ∨ key = "ArrowLeft" ∨ key = "ArrowRight" := by
  simp [validDirections]

/-- C14: `handleInput` with a key other than ArrowUp, ArrowDown, ArrowLeft,
ArrowRight returns the state unchanged (nothing is written, no timer is
started); with one of the four keys the current direction becomes that key,
player, ghosts, pellets, score and the page are untouched, and a timer is
started (handle recorded, interval running) exactly when no handle was
recorded; with a handle recorded, handle and timer stay as they were. -/
theorem handleInput_spec (key : String) (s : GameState) :
    ((key ≠ "ArrowUp" ∧ key ≠ "ArrowDown" ∧ key ≠ "ArrowLeft" ∧ key ≠ "ArrowRight") →
      handleInput key s = s) ∧
    ((key = "ArrowUp" ∨ key = "ArrowDown" ∨ key = "ArrowLeft" ∨ key = "ArrowRight") →
      (handleInput key s).currentDirection = some key ∧
      (handleInput key s).pacmanPosition = s.pacmanPosition ∧
      (handleInput key s).ghosts = s.ghosts ∧
      (handleInput key s).pellets = s.pellets ∧
      (handleInput key s).score = s.score ∧
      (handleInput key s).scoreText = s.scoreText ∧
      (handleInput key s).victoryHidden = s.victoryHidden ∧
      (handleInput key s).alerts = s.alerts ∧
      (handleInput key s).ghostTimerRunning = s.ghostTimerRunning ∧
      (s.movementInterval = true →
        handleInput key s = { s with currentDirection := some key }) ∧
      (s.movementInterval = false →
        handleInput key s
          = { s with currentDirection := some key, movementInterval := true,
                     movementTimerRunning := true })) := by
  constructor
  · intro hk
    apply handleInput_of_not_mem
    rw [mem_validDirections]
    tauto
  · intro hk
    rw [handleInput_of_mem ((mem_validDirections key).mpr hk)]
    refine ⟨rfl, rfl, rfl, rfl, rfl, rfl, rfl, rfl, rfl, ?_, ?_⟩
    · intro hm; cases s; simp_all
    · intro hm; cases s; simp_all

/-- C15: in a reachable state whose `currentDirection` is `null`,
`movePacman` changes nothing: the candidate cell is the player's own cell,
which holds neither a ghost nor a pellet, so player position, ghosts,
pellets, score and alert count are what they were; the whole state is. -/
theorem movePacman_idle (s : GameState) (h : Reachable s) (hd : s.currentDirection = none) :
    (movePacman s).pacmanPosition = s.pacmanPosition ∧
    (movePacman s).ghosts = s.ghosts ∧
    (movePacman s).pellets = s.pellets ∧
    (movePacman s).score = s.score ∧
    (movePacman s).alerts = s.alerts ∧
    movePacman s = s := by
  have hw := wellFormed_of_reachable h
  have hnp := movePacman_newPosition_of_none s hw.pacman_nonneg hd
  have hg : movePacman.newPosition s ∉ s.ghosts := by rw [hnp]; exact hw.no_overlap
  have hp : movePacman.newPosition s ∉ s.pellets := by rw [hnp]; exact hw.no_pellet
  have hne : ¬ s.pellets.length = 0 := by
    have h1 := hw.accounting
    have h2 := hw.idle_score hd
    omega
  have hs : movePacman s = s := by
    rw [movePacman_of_not_mem hg, if_neg hp, hnp]
    unfold updateGrid
    rw [if_neg hne]
  rw [hs]
  exact ⟨rfl, rfl, rfl, rfl, rfl, rfl⟩

/-- C15 at the initial state, whose direction is `null`. -/
theorem movePacman_idle_witness :
    Reachable initialState ∧ initialState.currentDirection = none ∧
    movePacman initialState = initialState :=
  ⟨Reachable.init, by decide, (movePacman_idle initialState Reachable.init (by decide)).2.2.2.2.2⟩

/-! ## Invariants of the reachable states (C16, C18, C19) -/

/-- C16, well-formedness: in every state reachable from the initial state by
`handleInput`, `movePacman` and `moveGhosts` calls, with any keys and any
draws, the player position lies in [0,225), the ghost list has exactly 4
entries and every ghost position lies in [0,225); and from such a state
the candidate cell of the player and, for every draw, the new cell of every
ghost (chase clamped, wander wrapped) lie in [0,225) again. -/
theorem reachable_positions_in_range (s : GameState) (h : Reachable s) :
    (0 ≤ s.pacmanPosition ∧ s.pacmanPosition < 225) ∧
    s.ghosts.length = 4 ∧
    (∀ g ∈ s.ghosts, 0 ≤ g ∧ g < 225) ∧
    (0 ≤ movePacman.newPosition s ∧ movePacman.newPosition s < 225) ∧
    (∀ g ∈ s.ghosts, ∀ i : Fin 4,
      0 ≤ moveGhosts.newPosition s.pacmanPosition g i ∧
      moveGhosts.newPosition s.pacmanPosition g i < 225) := by
  have hw := wellFormed_of_reachable h
  exact ⟨⟨hw.pacman_nonneg, hw.pacman_lt⟩, hw.ghosts_length, hw.ghosts_range,
    movePacman_newPosition_range s hw.pacman_nonneg hw.pacman_lt,
    fun g hg i => moveGhosts_newPosition_range _ g i (hw.ghosts_range g hg).1
      (hw.ghosts_range g hg).2⟩

/-- C16 at a concrete run: key Left, a ghost tick with every draw Up (the
ghosts of the top corners wrap to the bottom row), a player tick. -/
theorem reachable_positions_in_range_witness :
    Reachable (movePacman (moveGhosts (constDraws 0) (handleInput "ArrowLeft" initialState))) ∧
    (movePacman (moveGhosts (constDraws 0) (handleInput "ArrowLeft" initialState))).ghosts.length
      = 4 :=
  ⟨Reachable.movePacman (Reachable.moveGhosts _ (Reachable.handleInput _ Reachable.init)),
   (reachable_positions_in_range _
     (Reachable.movePacman (Reachable.moveGhosts _ (Reachable.handleInput _ Reachable.init)))).2.1⟩

/-- C18, score and pellet accounting: in every state reachable from the
initial state by `handleInput`, `movePacman` and `moveGhosts` calls the
pellets list has no duplicates and score + 10 · pellets.length = 2200. -/
theorem score_pellet_accounting (s : GameState) (h : Reachable s) :
    s.pellets.Nodup ∧ s.score + 10 * (s.pellets.length : Int) = 2200 := by
  have hw := wellFormed_of_reachable h
  exact ⟨hw.pellets_nodup, hw.accounting⟩

/-- C18 at a concrete run: key Right and four player ticks give score 40
with 216 pellets. -/
theorem score_pellet_accounting_witness :
    Reachable afterFourRight ∧ afterFourRight.score = 40 ∧
    afterFourRight.score + 10 * (afterFourRight.pellets.length : Int) = 2200 :=
  ⟨reachable_iterate_movePacman 4 (Reachable.handleInput _ Reachable.init), by decide,
   (score_pellet_accounting afterFourRight
     (reachable_iterate_movePacman 4 (Reachable.handleInput _ Reachable.init))).2⟩

/-- C19, no overlap: in every state reachable from the initial state by
`handleInput`, `movePacman` and `moveGhosts` calls, observed after the call
has returned, no ghost position equals the player's position. -/
theorem no_ghost_on_player (s : GameState) (h : Reachable s) :
    s.pacmanPosition ∉ s.ghosts ∧ ∀ g ∈ s.ghosts, g ≠ s.pacmanPosition := by
  have hw := wellFormed_of_reachable h
  exact ⟨hw.no_overlap, fun g hg he => hw.no_overlap (he ▸ hg)⟩

/-- C19 at a concrete run: the player walks into the ghost of corner 0; after
the call the game is reset and the player stands on 112, away from every
ghost. -/
theorem no_ghost_on_player_witness :
    Reachable (movePacman besideCornerGhost) ∧
    (movePacman besideCornerGhost).pacmanPosition ∉ (movePacman besideCornerGhost).ghosts :=
  ⟨Reachable.movePacman reachable_besideCornerGhost,
   (no_ghost_on_player _ (Reachable.movePacman reachable_besideCornerGhost)).1⟩

/-! ## Detection threshold and capture by a chasing ghost (C17, C20) -/

/-- C17, inclusive and unwrapped detection threshold: for a ghost on
(gr,gc) and the player on (pr,pc), the `distance` of the callback is
|gr−pr| + |gc−pc|, with no wraparound; if it is at most 3 (3 included) the
callback returns the chase cell, the same for every draw; if it is above 3
the callback returns the wander cell of the draw (draws Up and Down give
different cells); so the result is independent of the draw exactly when the
distance is at most 3.  A ghost on (0,0) with the player on (0,14) is at
distance 14 and wanders, although draw Left takes it onto the player. -/
theorem detection_threshold (gr gc pr pc : Int)
    (hgr : 0 ≤ gr) (hgr15 : gr < 15) (hgc : 0 ≤ gc) (hgc15 : gc < 15)
    (hpr : 0 ≤ pr) (_hpr15 : pr < 15) (hpc : 0 ≤ pc) (hpc15 : pc < 15) :
    moveGhosts.distance (pr * 15 + pc) (gr * 15 + gc) = |gr - pr| + |gc - pc| ∧
    (moveGhosts.distance (pr * 15 + pc) (gr * 15 + gc) ≤ DETECTION_RANGE
      ↔ |gr - pr| + |gc - pc| ≤ 3) ∧
    (|gr - pr| + |gc - pc| ≤ 3 → ∀ i : Fin 4,
      moveGhosts.newPosition (pr * 15 + pc) (gr * 15 + gc) i
        = (if gr < pr then mathMin (gr + 1) 14 else mathMax (gr - 1) 0) * 15
          + (if gc < pc then mathMin (gc + 1) 14 else mathMax (gc - 1) 0)) ∧
    (3 < |gr - pr| + |gc - pc| →
      moveGhosts.newPosition (pr * 15 + pc) (gr * 15 + gc) 0
        ≠ moveGhosts.newPosition (pr * 15 + pc) (gr * 15 + gc) 1) ∧
    ((∀ i j : Fin 4, moveGhosts.newPosition (pr * 15 + pc) (gr * 15 + gc) i
        = moveGhosts.newPosition (pr * 15 + pc) (gr * 15 + gc) j)
      ↔ |gr - pr| + |gc - pc| ≤ 3) ∧
    (moveGhosts.distance 14 0 = 14 ∧ getRowCol 0 = (0, 0) ∧ getRowCol 14 = (0, 14) ∧
      moveGhosts.newPosition 14 0 0 = 210 ∧ moveGhosts.newPosition 14 0 1 = 15 ∧
      moveGhosts.newPosition 14 0 2 = 14 ∧ moveGhosts.newPosition 14 0 3 = 1) ∧
    (moveGhosts.distance 83 80 = 3 ∧ ∀ i : Fin 4, moveGhosts.newPosition 83 80 i = 66) := by
  have hdist := distance_of_row_col hgr hgc hgc15 hpr hpc hpc15
  rw [mathAbs_eq_abs, mathAbs_eq_abs] at hdist
  have hchase : |gr - pr| + |gc - pc| ≤ 3 → ∀ i : Fin 4,
      moveGhosts.newPosition (pr * 15 + pc) (gr * 15 + gc) i
        = (if gr < pr then mathMin (gr + 1) 14 else mathMax (gr - 1) 0) * 15
          + (if gc < pc then mathMin (gc + 1) 14 else mathMax (gc - 1) 0) := by
    intro hd i
    apply chase_newPosition hgr hgc hgc15 hpr hpc hpc15
    rw [mathAbs_eq_abs, mathAbs_eq_abs]; exact hd
  have hwander : 3 < |gr - pr| + |gc - pc| →
      moveGhosts.newPosition (pr * 15 + pc) (gr * 15 + gc) 0
        ≠ moveGhosts.newPosition (pr * 15 + pc) (gr * 15 + gc) 1 := by
    intro hd
    apply wander_up_ne_down (by omega)
    rw [hdist]
    exact not_le.mpr hd
  refine ⟨hdist, by rw [hdist]; rfl, hchase, hwander, ?_, by decide, by decide⟩
  constructor
  · intro hall
    by_contra hd
    exact hwander (not_le.mp hd) (hall 0 1)
  · intro hd i j
    rw [hchase hd i, hchase hd j]

/-- C17 at a concrete pair: ghost (5,5), player (5,8), distance exactly 3. -/
theorem detection_threshold_witness :
    moveGhosts.distance (5 * 15 + 8) (5 * 15 + 5) = |(5 : Int) - 5| + |(5 : Int) - 8| ∧
    moveGhosts.distance (5 * 15 + 8) (5 * 15 + 5) = 3 :=
  ⟨(detection_threshold 5 5 5 8 (by decide) (by decide) (by decide) (by decide) (by decide)
      (by decide) (by decide) (by decide)).1, by decide⟩

/-- C20, capture by a chasing ghost: for a ghost on (gr,gc) and the player
on (pr,pc) with |gr−pr| + |gc−pc| ≤ 3, the ghost's new cell is the player's
cell if and only if on each axis the two coordinates differ by exactly 1 or
are both 0 (also when the two cells coincide); hence a ghost aligned with
the player on a row or column other than 0 does not land on the player, as
ghost (5,5) = 80 with player (5,6) = 81, which goes to (4,6) = 66. -/
theorem chase_capture_iff (gr gc pr pc : Int)
    (hgr : 0 ≤ gr) (hgr15 : gr < 15) (hgc : 0 ≤ gc) (hgc15 : gc < 15)
    (hpr : 0 ≤ pr) (hpr15 : pr < 15) (hpc : 0 ≤ pc) (hpc15 : pc < 15)
    (hd : |gr - pr| + |gc - pc| ≤ 3) (i : Fin 4) :
    (moveGhosts.newPosition (pr * 15 + pc) (gr * 15 + gc) i = pr * 15 + pc ↔
      (|gr - pr| = 1 ∨ (gr = 0 ∧ pr = 0)) ∧ (|gc - pc| = 1 ∨ (gc = 0 ∧ pc = 0))) ∧
    (gr = pr → gr ≠ 0 →
      moveGhosts.newPosition (pr * 15 + pc) (gr * 15 + gc) i ≠ pr * 15 + pc) ∧
    (gc = pc → gc ≠ 0 →
      moveGhosts.newPosition (pr * 15 + pc) (gr * 15 + gc) i ≠ pr * 15 + pc) ∧
    (getRowCol 80 = (5, 5) ∧ getRowCol 81 = (5, 6) ∧ moveGhosts.distance 81 80 = 1 ∧
      ∀ j : Fin 4, moveGhosts.newPosition 81 80 j = 66 ∧ (66 : Int) ≠ 81) := by
  have hd2 : mathAbs (gr - pr) + mathAbs (gc - pc) ≤ 3 := by
    rw [mathAbs_eq_abs, mathAbs_eq_abs]; exact hd
  rw [chase_newPosition hgr hgc hgc15 hpr hpc hpc15 hd2 i]
  rw [← mathAbs_eq_abs, ← mathAbs_eq_abs]
  unfold mathAbs mathMin mathMax at *
  refine ⟨?_, ?_, ?_, by decide⟩
  · split_ifs at hd2 ⊢ <;> omega
  · split_ifs at hd2 ⊢ <;> omega
  · split_ifs at hd2 ⊢ <;> omega

/-- C20 at a concrete pair: ghost (1,1), player (0,0), distance 2: the ghost
lands on the player. -/
theorem chase_capture_iff_witness :
    |(1 : Int) - 0| + |(1 : Int) - 0| ≤ 3 ∧
    moveGhosts.newPosition (0 * 15 + 0) (1 * 15 + 1) 0 = 0 * 15 + 0 :=
  ⟨by decide,
   ((chase_capture_iff 1 1 0 0 (by decide) (by decide) (by decide) (by decide) (by decide)
      (by decide) (by decide) (by decide) (by decide) 0).1).mpr
     ⟨Or.inl (by decide), Or.inl (by decide)⟩⟩

end PacMan
